import Mathlib

/-!
Verification of the chat front-end in `app.py`: the UUID matcher `is_uuid`,
the response extractor `extract_langflow_text`, the API wrapper
`call_langflow_api`, and the per-turn chat-history update.  JSON values are
modelled by the inductive `Json`; Python strings are Lean strings, with
`str.strip()` modelled by `pyStrip` (Python's whitespace class, ASCII part)
and `len` by `String.length` (both count characters).
-/

namespace ChatApp

/-- JSON-shaped Python values: `None`, `bool`, numbers, `str`, `list`, `dict`
(dicts are insertion-ordered, modelled as association lists). -/
inductive Json where
  | null
  | bool (b : Bool)
  | num (n : Int)
  | str (s : String)
  | arr (elems : List Json)
  | obj (fields : List (String × Json))

/-- Python's whitespace characters (ASCII part), as stripped by `str.strip()`. -/
def pyWhitespace (c : Char) : Bool :=
  c = ' ' || c = '\t' || c = '\n' || c = '\r' || c = '\x0b' || c = '\x0c'

/-- Python `str.strip()` on the character list: drop whitespace from both ends. -/
def pyStripList (cs : List Char) : List Char :=
  ((cs.dropWhile pyWhitespace).reverse.dropWhile pyWhitespace).reverse

/-- Python `s.strip()`. -/
def pyStrip (s : String) : String :=
  ⟨pyStripList s.data⟩

/-- The character class `[0-9a-fA-F]` of the UUID regex. -/
def isHexDigit (c : Char) : Bool :=
  ('0' ≤ c && c ≤ '9') || ('a' ≤ c && c ≤ 'f') || ('A' ≤ c && c ≤ 'F')

/-- Consume exactly `n` hex digits (`[0-9a-fA-F]{n}`), returning the rest. -/
def hexRun : Nat → List Char → Option (List Char)
  | 0, cs => some cs
  | _ + 1, [] => none
  | n + 1, c :: cs => if isHexDigit c then hexRun n cs else none

/-- Consume a hyphen followed by exactly `n` hex digits. -/
def dashHex (n : Nat) : List Char → Option (List Char)
  | [] => none
  | c :: cs => if c = '-' then hexRun n cs else none

/-- The regex test `_uuid_regex.fullmatch`: the whole character list matches
`[0-9a-fA-F]{8}-[0-9a-fA-F]{4}-[0-9a-fA-F]{4}-[0-9a-fA-F]{4}-[0-9a-fA-F]{12}`. -/
def uuidMatch (cs : List Char) : Bool :=
  (((((hexRun 8 cs).bind (dashHex 4)).bind (dashHex 4)).bind
      (dashHex 4)).bind (dashHex 12)) = some []

/-- The matcher `is_uuid(s)`, i.e. `bool(_uuid_regex.fullmatch(s.strip()))`.  The function is
pure and total; the `try/except` in the source is dead code since neither
`strip` nor `fullmatch` raises on a string. -/
def is_uuid (s : String) : Bool :=
  uuidMatch (pyStrip s).data

/-- The specification's characterization of a canonical UUID: eight hex
digits, hyphen, four hex digits, hyphen, four hex digits, hyphen, four hex
digits, hyphen, twelve hex digits, all from `[0-9a-fA-F]`
(case-insensitive). -/
def CanonicalUuid (cs : List Char) : Prop :=
  ∃ a b c d e : List Char,
    cs = a ++ '-' :: (b ++ '-' :: (c ++ '-' :: (d ++ '-' :: e))) ∧
    a.length = 8 ∧ b.length = 4 ∧ c.length = 4 ∧ d.length = 4 ∧
    e.length = 12 ∧
    (∀ x ∈ a, isHexDigit x = true) ∧ (∀ x ∈ b, isHexDigit x = true) ∧
    (∀ x ∈ c, isHexDigit x = true) ∧ (∀ x ∈ d, isHexDigit x = true) ∧
    (∀ x ∈ e, isHexDigit x = true)

/-- Python truthiness of a JSON-shaped value. -/
def truthyJ : Json → Bool
  | Json.null => false
  | Json.bool b => b
  | Json.num n => n != 0
  | Json.str s => s != ""
  | Json.arr xs => !xs.isEmpty
  | Json.obj kvs => !kvs.isEmpty

/-- Truthiness of an optional value (`None` is falsy). -/
def truthyO : Option Json → Bool
  | none => false
  | some j => truthyJ j

/-- Python `a or b` on optional JSON values. -/
def pyOr (a b : Option Json) : Option Json :=
  if truthyO a then a else b

/-- Python `d.get(k)` on an insertion-ordered dict. -/
def olookup (k : String) : List (String × Json) → Option Json
  | [] => none
  | kv :: kvs => if kv.1 = k then some kv.2 else olookup k kvs

/-- The acceptance test of the structured-outputs path:
`if candidate and isinstance(candidate, str) and not is_uuid(candidate):
return candidate.strip()`. -/
def acceptCand : Option Json → Option String
  | some (Json.str s) =>
    if s = "" then none
    else if is_uuid s then none
    else some (pyStrip s)
  | _ => none

/-- Shape (a): `out['outputs']['message']['message'] or ...['text']`. -/
def probeA (out : Json) : Option String :=
  match out with
  | Json.obj kvs =>
    match olookup "outputs" kvs with
    | some (Json.obj ov) =>
      match olookup "message" ov with
      | some (Json.obj mv) =>
        acceptCand (pyOr (olookup "message" mv) (olookup "text" mv))
      | _ => none
    | _ => none
  | _ => none

/-- Shape (b): `out['messages'][0]['message']` when `messages` is a non-empty
list whose first element is a dict. -/
def probeB (out : Json) : Option String :=
  match out with
  | Json.obj kvs =>
    match olookup "messages" kvs with
    | some (Json.arr (first :: _)) =>
      match first with
      | Json.obj fv => acceptCand (olookup "message" fv)
      | _ => none
    | _ => none
  | _ => none

/-- Shape (c): `out['artifacts']['message']`. -/
def probeC (out : Json) : Option String :=
  match out with
  | Json.obj kvs =>
    match olookup "artifacts" kvs with
    | some (Json.obj av) => acceptCand (olookup "message" av)
    | _ => none
  | _ => none

/-- Shape (d): `out['results']['message']['data']['text']`, else
`out['results']['message']['text'] or ...['default_value']`. -/
def probeD (out : Json) : Option String :=
  match out with
  | Json.obj kvs =>
    match olookup "results" kvs with
    | some (Json.obj rv) =>
      match olookup "message" rv with
      | some (Json.obj mv) =>
        match
          (match olookup "data" mv with
           | some (Json.obj dv) => acceptCand (olookup "text" dv)
           | _ => none) with
        | some s => some s
        | none => acceptCand (pyOr (olookup "text" mv) (olookup "default_value" mv))
      | _ => none
    | _ => none
  | _ => none

/-- One iteration of the `for out in outputs` loop: non-dict items are
skipped (`continue`), dict items try the four shapes in order. -/
def probeItem (out : Json) : Option String :=
  match out with
  | Json.obj _ =>
    match probeA out with
    | some s => some s
    | none =>
      match probeB out with
      | some s => some s
      | none =>
        match probeC out with
        | some s => some s
        | none => probeD out
  | _ => none

/-- First successful probe over a list (the `return` inside the loop). -/
def firstSome (f : Json → Option String) : List Json → Option String
  | [] => none
  | x :: xs =>
    match f x with
    | some s => some s
    | none => firstSome f xs

/-- Step 1 of the extractor: `outputs = resp.get("outputs") if
isinstance(resp, dict) else None; if outputs and isinstance(outputs, list)`
(empty lists are falsy), iterate the items. -/
def step1 (resp : Json) : Option String :=
  match resp with
  | Json.obj kvs =>
    match olookup "outputs" kvs with
    | some (Json.arr (x :: xs)) => firstSome probeItem (x :: xs)
    | _ => none
  | _ => none

/-- The shallow key loop of step 2: `if isinstance(v, str) and not
is_uuid(v): return v.strip()`, keys tried in order. -/
def shallowKeys : List String → List (String × Json) → Option String
  | [], _ => none
  | k :: ks, kvs =>
    match olookup k kvs with
    | some (Json.str s) =>
      if is_uuid s then shallowKeys ks kvs else some (pyStrip s)
    | _ => shallowKeys ks kvs

/-- Step 2 of the extractor: probe the top-level keys
`("message", "text", "output", "result")` of a dict. -/
def step2 (resp : Json) : Option String :=
  match resp with
  | Json.obj kvs => shallowKeys ["message", "text", "output", "result"] kvs
  | _ => none

/-- The string case of the fallback walk: `s = x.strip(); if not s: return;
if is_uuid(s): return; if len(s) > len(longest) and len(s) > 10: longest = s`. -/
def stepStr (x : String) (acc : String) : String :=
  if pyStrip x = "" then acc
  else if is_uuid (pyStrip x) then acc
  else if acc.length < (pyStrip x).length ∧ 10 < (pyStrip x).length then
    pyStrip x
  else acc

mutual

/-- The recursive fallback `walk`, threading the `longest` accumulator. -/
def walkAcc : Json → String → String
  | Json.null, acc => acc
  | Json.bool _, acc => acc
  | Json.num _, acc => acc
  | Json.str s, acc => stepStr s acc
  | Json.arr xs, acc => walkArr xs acc
  | Json.obj kvs, acc => walkObj kvs acc

/-- The loop `for item in x: walk(item)` over a list. -/
def walkArr : List Json → String → String
  | [], acc => acc
  | x :: xs, acc => walkArr xs (walkAcc x acc)

/-- The loop `for v in x.values(): walk(v)` over a dict: keys are never visited. -/
def walkObj : List (String × Json) → String → String
  | [], acc => acc
  | kv :: kvs, acc => walkObj kvs (walkAcc kv.2 acc)

end

/-- Steps 1–3 of the extractor for a non-`None` input. -/
def extractRest (resp : Json) : String :=
  match step1 resp with
  | some s => s
  | none =>
    match step2 resp with
    | some s => s
    | none => pyStrip (walkAcc resp "")

/-- The extractor `extract_langflow_text`: `None` returns `""` at once, otherwise the three
steps run in order. -/
def extract : Json → String
  | Json.null => ""
  | resp => extractRest resp

/-! ### Exception model for the structured-outputs path

Step 1 of the source sits inside `try: ... except Exception: pass`.  To state
that the extractor never raises, step 1 is re-expressed in the `Except` monad
where Python's raising primitive (`.get` on a non-dict) is modelled by
`pyGetE`; the `isinstance` guards of the source keep every `.get` on a dict,
and steps 2 and 3 contain no raising operation (every access there is behind
an `isinstance` test or a plain loop). -/

/-- A raised Python exception, as far as the extractor can be concerned. -/
inductive PyErr where
  | attributeError

/-- Python `x.get(k)`: returns an optional value on a dict, raises on anything
else (`AttributeError`). -/
def pyGetE (j : Json) (k : String) : Except PyErr (Option Json) :=
  match j with
  | Json.obj kvs => Except.ok (olookup k kvs)
  | _ => Except.error PyErr.attributeError

/-- Shape (a) in the exception model. -/
def probeAE (out : Json) : Except PyErr (Option String) :=
  match pyGetE out "outputs" with
  | Except.error e => Except.error e
  | Except.ok oOutputs =>
    match oOutputs with
    | some (Json.obj ov) =>
      match pyGetE (Json.obj ov) "message" with
      | Except.error e => Except.error e
      | Except.ok msgObj =>
        match msgObj with
        | some (Json.obj mv) =>
          match pyGetE (Json.obj mv) "message", pyGetE (Json.obj mv) "text" with
          | Except.error e, _ => Except.error e
          | Except.ok _, Except.error e => Except.error e
          | Except.ok m, Except.ok t => Except.ok (acceptCand (pyOr m t))
        | _ => Except.ok none
    | _ => Except.ok none

/-- Shape (b) in the exception model. -/
def probeBE (out : Json) : Except PyErr (Option String) :=
  match pyGetE out "messages" with
  | Except.error e => Except.error e
  | Except.ok msgs =>
    match msgs with
    | some (Json.arr (first :: _)) =>
      match first with
      | Json.obj fv =>
        match pyGetE (Json.obj fv) "message" with
        | Except.error e => Except.error e
        | Except.ok c => Except.ok (acceptCand c)
      | _ => Except.ok none
    | _ => Except.ok none

/-- Shape (c) in the exception model. -/
def probeCE (out : Json) : Except PyErr (Option String) :=
  match pyGetE out "artifacts" with
  | Except.error e => Except.error e
  | Except.ok artifacts =>
    match artifacts with
    | some (Json.obj av) =>
      match pyGetE (Json.obj av) "message" with
      | Except.error e => Except.error e
      | Except.ok c => Except.ok (acceptCand c)
    | _ => Except.ok none

/-- Shape (d) in the exception model. -/
def probeDE (out : Json) : Except PyErr (Option String) :=
  match pyGetE out "results" with
  | Except.error e => Except.error e
  | Except.ok results =>
    match results with
    | some (Json.obj rv) =>
      match pyGetE (Json.obj rv) "message" with
      | Except.error e => Except.error e
      | Except.ok msg =>
        match msg with
        | some (Json.obj mv) =>
          match pyGetE (Json.obj mv) "data" with
          | Except.error e => Except.error e
          | Except.ok data =>
            match
              (match data with
               | some (Json.obj dv) =>
                 match pyGetE (Json.obj dv) "text" with
                 | Except.error _ => none
                 | Except.ok t => acceptCand t
               | _ => none) with
            | some s => Except.ok (some s)
            | none =>
              match pyGetE (Json.obj mv) "text", pyGetE (Json.obj mv) "default_value" with
              | Except.error e, _ => Except.error e
              | Except.ok _, Except.error e => Except.error e
              | Except.ok t, Except.ok d => Except.ok (acceptCand (pyOr t d))
        | _ => Except.ok none
    | _ => Except.ok none

/-- One loop iteration in the exception model: non-dict items `continue`. -/
def probeItemE (out : Json) : Except PyErr (Option String) :=
  match out with
  | Json.obj _ =>
    match probeAE out with
    | Except.error e => Except.error e
    | Except.ok (some s) => Except.ok (some s)
    | Except.ok none =>
      match probeBE out with
      | Except.error e => Except.error e
      | Except.ok (some s) => Except.ok (some s)
      | Except.ok none =>
        match probeCE out with
        | Except.error e => Except.error e
        | Except.ok (some s) => Except.ok (some s)
        | Except.ok none => probeDE out
  | _ => Except.ok none

/-- The loop over `outputs` in the exception model. -/
def firstSomeE (f : Json → Except PyErr (Option String)) :
    List Json → Except PyErr (Option String)
  | [] => Except.ok none
  | x :: xs =>
    match f x with
    | Except.error e => Except.error e
    | Except.ok (some s) => Except.ok (some s)
    | Except.ok none => firstSomeE f xs

/-- Step 1 in the exception model (the body of the `try` block). -/
def step1E (resp : Json) : Except PyErr (Option String) :=
  match resp with
  | Json.obj kvs =>
    match olookup "outputs" kvs with
    | some (Json.arr (x :: xs)) => firstSomeE probeItemE (x :: xs)
    | _ => Except.ok none
  | _ => Except.ok none

/-- The whole extractor in the exception model: step 1 runs under
`try/except Exception: pass`, steps 2 and 3 run bare (they contain no raising
operation). -/
def extractE : Json → Except PyErr String
  | Json.null => Except.ok ""
  | resp =>
    match
      (match step1E resp with
       | Except.ok v => v
       | Except.error _ => none) with
    | some s => Except.ok s
    | none =>
      match step2 resp with
      | some s => Except.ok s
      | none => Except.ok (pyStrip (walkAcc resp ""))

/-! ### The fallback walk as a fold over the depth-first string list -/

mutual

/-- All string values reachable from a JSON value, in the depth-first order
of the fallback `walk` (dict keys are not string values and do not appear). -/
def strsOf : Json → List String
  | Json.null => []
  | Json.bool _ => []
  | Json.num _ => []
  | Json.str s => [s]
  | Json.arr xs => strsA xs
  | Json.obj kvs => strsO kvs

/-- Strings of a list of values, in order. -/
def strsA : List Json → List String
  | [] => []
  | x :: xs => strsOf x ++ strsA xs

/-- Strings of the values of a dict, in order. -/
def strsO : List (String × Json) → List String
  | [] => []
  | kv :: kvs => strsOf kv.2 ++ strsO kvs

end

/-- The qualification test of the fallback walk on a raw string: strip it,
discard it when empty, a UUID, or of length at most 10; keep the stripped
form. -/
def fragFn (x : String) : Option String :=
  if pyStrip x = "" then none
  else if is_uuid (pyStrip x) then none
  else if 10 < (pyStrip x).length then some (pyStrip x) else none

/-- The qualifying strings of the fallback walk, stripped, in the walk's
depth-first order. -/
def qualCands (j : Json) : List String :=
  (strsOf j).filterMap fragFn

/-- The replacement rule of the walk on qualifying strings: strictly longer
wins, ties keep the incumbent. -/
def mstep (acc s : String) : String :=
  if acc.length < s.length then s else acc

/-! ### API client -/

/-- The failure modes of `call_langflow_api`: the missing-key `RuntimeError`
and the non-2xx `RuntimeError` (which carries the status code and the body
text verbatim). -/
inductive CallError where
  | configError (msg : String)
  | httpError (status : Nat) (body : String)

/-- The HTTP response received by `requests.post`: status code, body text,
and the result of `r.json()` (`none` models a `ValueError`, i.e. a body that
is not valid JSON). -/
structure HttpResponse where
  status : Nat
  body : String
  parsed : Option Json

/-- The check `if not LANGFLOW_API_KEY`: `os.getenv` yields `None` when the variable is
absent, and both `None` and the empty string are falsy. -/
def keyMissing : Option String → Bool
  | none => true
  | some k => k = ""

/-- The message of the configuration `RuntimeError`. -/
def configErrMsg : String :=
  "LANGFLOW_API_KEY environment variable is not set. Set it and re-run the app."

/-- The call `r.raise_for_status()` from the `requests` library raises `HTTPError`
exactly when `400 <= status < 600`; informational and redirect statuses do
not raise. -/
def raiseForStatus (status : Nat) : Bool :=
  400 ≤ status && status < 600

/-- The client `call_langflow_api`, as a function of the configured key and of the
response the single `requests.post` would receive.  The second component
counts the POST requests sent: the missing-key check happens before the
request is built, so that path sends none. -/
def call_langflow_api (apiKey : Option String) (r : HttpResponse) :
    Except CallError Json × Nat :=
  if keyMissing apiKey then
    (Except.error (CallError.configError configErrMsg), 0)
  else if raiseForStatus r.status then
    (Except.error (CallError.httpError r.status r.body), 1)
  else
    match r.parsed with
    | some j => (Except.ok j, 1)
    | none => (Except.ok (Json.obj [("raw_text", Json.str r.body)]), 1)

/-! ### The per-turn history update -/

/-- The role tag of a chat history entry. -/
inductive Role where
  | user
  | bot

/-- The bot text computed by the turn handler: the extracted answer when
non-empty, else the `raw_text` field when present, else the placeholder; a
raised exception `e` is caught and becomes the error string. -/
def botAnswer (outcome : Except String Json) : Json :=
  match outcome with
  | Except.error e => Json.str ("Error calling Langflow API: " ++ e)
  | Except.ok raw =>
    let a := extract raw
    if a = "" then
      match raw with
      | Json.obj kvs =>
        match olookup "raw_text" kvs with
        | some v => v
        | none => Json.str "No human-readable answer found."
      | _ => Json.str "No human-readable answer found."
    else Json.str a

/-- The `if user_input:` block: append the user turn, compute the bot answer
(any exception from the call is caught and converted), append the bot turn. -/
def processTurn (hist : List (Role × Json)) (input : String)
    (outcome : Except String Json) : List (Role × Json) :=
  (hist ++ [(Role.user, Json.str input)]) ++ [(Role.bot, botAnswer outcome)]

/-! ### Concrete inputs used by counterexamples and witnesses -/

/-- An `outputs` item whose shape-(a) candidate is whitespace-only, next to a
top-level `message` the shallow probe would return. -/
def wsInput : Json :=
  Json.obj
    [("outputs",
      Json.arr
        [Json.obj
          [("outputs",
            Json.obj [("message", Json.obj [("message", Json.str "   ")])])]]),
     ("message", Json.str "hello there")]

/-- A structured response whose shape-(a) `message` is padded text. -/
def helloInput : Json :=
  Json.obj
    [("outputs",
      Json.arr
        [Json.obj
          [("outputs",
            Json.obj
              [("message", Json.obj [("message", Json.str " Hello there ")])])]])]

/-- An item whose `outputs.message.message` is a UUID while
`outputs.message.text` is short non-UUID text. -/
def uuidTextInput : Json :=
  Json.obj
    [("outputs",
      Json.arr
        [Json.obj
          [("outputs",
            Json.obj
              [("message",
                Json.obj
                  [("message", Json.str "a8b894bc-5791-4eb9-a925-3a8136872944"),
                   ("text", Json.str "hi")])])]])]

/-- An object with no structured shape and no shallow key, whose only string
is long enough for the fallback. -/
def fallbackInput : Json :=
  Json.obj [("foo", Json.str "a sufficiently long reply")]

/-- A 304 response with a JSON body: a status outside the 2xx range that
`raise_for_status` does not turn into an error. -/
def resp304 : HttpResponse :=
  ⟨304, "cached body", some (Json.str "cached result")⟩

/-- A 500 response. -/
def resp500 : HttpResponse :=
  ⟨500, "oops", none⟩

/-- A 200 response whose body is not valid JSON. -/
def resp200raw : HttpResponse :=
  ⟨200, "plain text body", none⟩

/-! ## Helper lemmas on stripping -/

theorem length_dropWhile_le (p : Char → Bool) (l : List Char) :
    (l.dropWhile p).length ≤ l.length := by
  induction l with
  | nil => simp [List.dropWhile]
  | cons a l ih =>
    by_cases h : p a
    · simp only [List.dropWhile, h]
      exact Nat.le_trans ih (Nat.le_succ _)
    · simp [List.dropWhile, h]

theorem dropWhile_head_not (p : Char → Bool) (l : List Char) (a : Char)
    (t : List Char) (h : l.dropWhile p = a :: t) : p a = false := by
  induction l with
  | nil => simp [List.dropWhile] at h
  | cons b l ih =>
    by_cases hb : p b
    · simp only [List.dropWhile, hb] at h
      exact ih h
    · simp only [List.dropWhile, hb] at h
      injection h with h1 h2
      rw [← h1]
      simpa using hb

theorem dropWhile_idem (p : Char → Bool) (l : List Char) :
    (l.dropWhile p).dropWhile p = l.dropWhile p := by
  cases h : l.dropWhile p with
  | nil => rfl
  | cons a t =>
    have ha := dropWhile_head_not p l a t h
    simp [List.dropWhile, ha]

theorem head_not_of_dropWhile_self (p : Char → Bool) (a : Char)
    (t : List Char) (h : (a :: t).dropWhile p = a :: t) : p a = false := by
  by_cases ha : p a
  · simp only [List.dropWhile, ha] at h
    have := length_dropWhile_le p t
    rw [h] at this
    simp at this
  · simpa using ha

theorem dropWhile_append_last (p : Char → Bool) (l : List Char) (a : Char)
    (ha : p a = false) :
    ∃ r, (l ++ [a]).dropWhile p = r ++ [a] := by
  induction l with
  | nil => exact ⟨[], by simp [List.dropWhile, ha]⟩
  | cons b l ih =>
    by_cases hb : p b
    · simpa [List.dropWhile, hb] using ih
    · exact ⟨b :: l, by simp [List.dropWhile, hb]⟩

theorem dropWhile_reverse_dropWhile (p : Char → Bool) (m : List Char)
    (hm : m.dropWhile p = m) :
    ((m.reverse.dropWhile p).reverse).dropWhile p
      = (m.reverse.dropWhile p).reverse := by
  cases m with
  | nil => simp [List.dropWhile]
  | cons a t =>
    have ha : p a = false := head_not_of_dropWhile_self p a t hm
    obtain ⟨r, hr⟩ := dropWhile_append_last p t.reverse a ha
    have hrev : (a :: t).reverse = t.reverse ++ [a] := by simp
    rw [hrev, hr]
    rw [show (r ++ [a]).reverse = a :: r.reverse by simp]
    simp [List.dropWhile, ha]

theorem pyStripList_idem (l : List Char) :
    pyStripList (pyStripList l) = pyStripList l := by
  unfold pyStripList
  rw [dropWhile_reverse_dropWhile pyWhitespace (l.dropWhile pyWhitespace)
    (dropWhile_idem _ _), List.reverse_reverse, dropWhile_idem]

theorem pyStrip_idem (s : String) : pyStrip (pyStrip s) = pyStrip s := by
  unfold pyStrip
  exact congrArg String.mk (pyStripList_idem s.data)

/-! ## The UUID matcher (C4) -/

theorem hexRun_eq_some (n : Nat) : ∀ (cs rest : List Char),
    hexRun n cs = some rest ↔
      ∃ pre, cs = pre ++ rest ∧ pre.length = n ∧
        ∀ c ∈ pre, isHexDigit c = true := by
  induction n with
  | zero =>
    intro cs rest
    constructor
    · intro h
      refine ⟨[], ?_, rfl, by simp⟩
      simpa [hexRun] using h
    · rintro ⟨pre, hcs, hlen, -⟩
      have hpre : pre = [] := List.length_eq_zero.mp hlen
      subst hpre
      have : cs = rest := by simpa using hcs
      simp [hexRun, this]
  | succ n ih =>
    intro cs rest
    cases cs with
    | nil =>
      simp only [hexRun]
      constructor
      · intro h; cases h
      · rintro ⟨pre, hcs, hlen, -⟩
        have := congrArg List.length hcs
        simp only [List.length_nil, List.length_append, hlen] at this
        exact absurd this (by omega)
    | cons c cs =>
      simp only [hexRun]
      by_cases hc : isHexDigit c
      · rw [if_pos hc, ih]
        constructor
        · rintro ⟨pre, rfl, hlen, hall⟩
          refine ⟨c :: pre, rfl, by simp [hlen], ?_⟩
          intro x hx
          rcases List.mem_cons.mp hx with rfl | hx
          · exact hc
          · exact hall x hx
        · rintro ⟨pre, heq, hlen, hall⟩
          cases pre with
          | nil => simp at hlen
          | cons p ps =>
            have hcp : c = p ∧ cs = ps ++ rest := by
              have := heq
              simp only [List.cons_append] at this
              exact ⟨by injection this, by injection this⟩
            refine ⟨ps, hcp.2, by simpa using hlen, ?_⟩
            intro x hx
            exact hall x (List.mem_cons_of_mem p hx)
      · rw [if_neg hc]
        constructor
        · intro h; cases h
        · rintro ⟨pre, heq, hlen, hall⟩
          cases pre with
          | nil => simp at hlen
          | cons p ps =>
            have hcp : c = p := by
              have := heq
              simp only [List.cons_append] at this
              injection this
            exact absurd (hcp ▸ hall p (List.mem_cons_self p ps)) (by simp [hc])

theorem dashHex_eq_some (n : Nat) (cs rest : List Char) :
    dashHex n cs = some rest ↔
      ∃ pre, cs = '-' :: (pre ++ rest) ∧ pre.length = n ∧
        ∀ c ∈ pre, isHexDigit c = true := by
  cases cs with
  | nil =>
    simp only [dashHex]
    constructor
    · intro h; cases h
    · rintro ⟨pre, h, -, -⟩; cases h
  | cons c cs =>
    simp only [dashHex]
    by_cases hc : c = '-'
    · subst hc
      rw [if_pos rfl, hexRun_eq_some]
      constructor
      · rintro ⟨pre, rfl, hlen, hall⟩
        exact ⟨pre, rfl, hlen, hall⟩
      · rintro ⟨pre, heq, hlen, hall⟩
        refine ⟨pre, ?_, hlen, hall⟩
        injection heq
    · rw [if_neg hc]
      constructor
      · intro h; cases h
      · rintro ⟨pre, heq, -, -⟩
        exact absurd (by injection heq) hc

theorem uuidMatch_iff (cs : List Char) :
    uuidMatch cs = true ↔ CanonicalUuid cs := by
  simp only [uuidMatch, decide_eq_true_eq]
  constructor
  · intro h
    rcases Option.bind_eq_some.mp h with ⟨r4, h4, hd12⟩
    rcases Option.bind_eq_some.mp h4 with ⟨r3, h3, hd43⟩
    rcases Option.bind_eq_some.mp h3 with ⟨r2, h2m, hd42⟩
    rcases Option.bind_eq_some.mp h2m with ⟨r1, h1, hd41⟩
    rcases (hexRun_eq_some 8 cs r1).mp h1 with ⟨a, rfl, ha8, haH⟩
    rcases (dashHex_eq_some 4 r1 r2).mp hd41 with ⟨b, hb, hb4, hbH⟩
    rcases (dashHex_eq_some 4 r2 r3).mp hd42 with ⟨c, hc, hc4, hcH⟩
    rcases (dashHex_eq_some 4 r3 r4).mp hd43 with ⟨d, hd, hd4, hdH⟩
    rcases (dashHex_eq_some 12 r4 []).mp hd12 with ⟨e, he, he12, heH⟩
    subst hb hc hd he
    refine ⟨a, b, c, d, e, by simp, ha8, hb4, hc4, hd4, he12,
      haH, hbH, hcH, hdH, heH⟩
  · rintro ⟨a, b, c, d, e, rfl, ha8, hb4, hc4, hd4, he12,
      haH, hbH, hcH, hdH, heH⟩
    have h1 : hexRun 8 (a ++ '-' :: (b ++ '-' :: (c ++ '-' :: (d ++ '-' :: e))))
        = some ('-' :: (b ++ '-' :: (c ++ '-' :: (d ++ '-' :: e)))) :=
      (hexRun_eq_some _ _ _).mpr ⟨a, rfl, ha8, haH⟩
    have h2 : dashHex 4 ('-' :: (b ++ '-' :: (c ++ '-' :: (d ++ '-' :: e))))
        = some ('-' :: (c ++ '-' :: (d ++ '-' :: e))) :=
      (dashHex_eq_some _ _ _).mpr ⟨b, rfl, hb4, hbH⟩
    have h3 : dashHex 4 ('-' :: (c ++ '-' :: (d ++ '-' :: e)))
        = some ('-' :: (d ++ '-' :: e)) :=
      (dashHex_eq_some _ _ _).mpr ⟨c, rfl, hc4, hcH⟩
    have h4 : dashHex 4 ('-' :: (d ++ '-' :: e)) = some ('-' :: e) :=
      (dashHex_eq_some _ _ _).mpr ⟨d, rfl, hd4, hdH⟩
    have h5 : dashHex 12 ('-' :: e) = some [] :=
      (dashHex_eq_some _ _ _).mpr ⟨e, by simp, he12, heH⟩
    rw [h1]
    simp only [Option.some_bind]
    rw [h2]
    simp only [Option.some_bind]
    rw [h3]
    simp only [Option.some_bind]
    rw [h4]
    simp only [Option.some_bind]
    exact h5

/-- C4: `is_uuid(s)` is true exactly when `s`, after trimming surrounding
whitespace, is a canonical UUID — eight hex digits, hyphen, four hex digits,
hyphen, four hex digits, hyphen, four hex digits, hyphen, twelve hex digits
(hence 36 characters in all), case-insensitive; the function is pure and
total (the `try/except` never fires). -/
theorem is_uuid_iff_canonical (s : String) :
    is_uuid s = true ↔
      CanonicalUuid (pyStrip s).data ∧ (pyStrip s).length = 36 := by
  unfold is_uuid
  rw [uuidMatch_iff]
  constructor
  · intro h
    refine ⟨h, ?_⟩
    rcases h with ⟨a, b, c, d, e, heq, ha, hb, hc, hd, he, -⟩
    have hl : (pyStrip s).length = (pyStrip s).data.length := rfl
    rw [hl, heq]
    simp only [List.length_append, List.length_cons, ha, hb, hc, hd, he]
  · rintro ⟨h, -⟩
    exact h

/-! ## The fallback walk as a fold (C3, C10) -/

theorem stepStr_eq_foldl (x acc : String) :
    stepStr x acc = List.foldl mstep acc (List.filterMap fragFn [x]) := by
  unfold stepStr fragFn
  simp only [List.filterMap_cons, List.filterMap_nil]
  by_cases h1 : pyStrip x = ""
  · simp [h1]
  · by_cases h2 : is_uuid (pyStrip x) = true
    · simp [h1, h2]
    · by_cases h3 : 10 < (pyStrip x).length
      · by_cases h4 : acc.length < (pyStrip x).length
        · simp [h1, h2, h3, h4, mstep]
        · simp [h1, h2, h3, h4, mstep]
      · simp [h1, h2, h3]

mutual

theorem walkAcc_eq_fold : ∀ (j : Json) (acc : String),
    walkAcc j acc = List.foldl mstep acc (qualCands j)
  | Json.null, _ => rfl
  | Json.bool _, _ => rfl
  | Json.num _, _ => rfl
  | Json.str s, acc => stepStr_eq_foldl s acc
  | Json.arr xs, acc => walkArr_eq_fold xs acc
  | Json.obj kvs, acc => walkObj_eq_fold kvs acc

theorem walkArr_eq_fold : ∀ (xs : List Json) (acc : String),
    walkArr xs acc = List.foldl mstep acc ((strsA xs).filterMap fragFn)
  | [], _ => rfl
  | x :: xs, acc => by
    rw [show walkArr (x :: xs) acc = walkArr xs (walkAcc x acc) from rfl]
    rw [walkArr_eq_fold xs (walkAcc x acc), walkAcc_eq_fold x acc]
    rw [show strsA (x :: xs) = strsOf x ++ strsA xs from rfl]
    rw [List.filterMap_append, List.foldl_append]
    rfl

theorem walkObj_eq_fold : ∀ (kvs : List (String × Json)) (acc : String),
    walkObj kvs acc = List.foldl mstep acc ((strsO kvs).filterMap fragFn)
  | [], _ => rfl
  | kv :: kvs, acc => by
    rw [show walkObj (kv :: kvs) acc = walkObj kvs (walkAcc kv.2 acc) from rfl]
    rw [walkObj_eq_fold kvs (walkAcc kv.2 acc), walkAcc_eq_fold kv.2 acc]
    rw [show strsO (kv :: kvs) = strsOf kv.2 ++ strsO kvs from rfl]
    rw [List.filterMap_append, List.foldl_append]
    rfl

end

theorem foldl_mstep_spec (l : List String) : ∀ acc : String,
    (List.foldl mstep acc l = acc ∧ ∀ t ∈ l, t.length ≤ acc.length) ∨
    (∃ pre m post, l = pre ++ m :: post ∧ List.foldl mstep acc l = m ∧
      acc.length < m.length ∧ (∀ t ∈ pre, t.length < m.length) ∧
      (∀ t ∈ post, t.length ≤ m.length)) := by
  induction l with
  | nil => intro acc; exact Or.inl ⟨rfl, by simp⟩
  | cons a l ih =>
    intro acc
    rw [List.foldl_cons]
    by_cases h : acc.length < a.length
    · have hm : mstep acc a = a := by simp [mstep, h]
      rw [hm]
      rcases ih a with ⟨heq, hall⟩ | ⟨pre, m, post, hsplit, heq, hlt, hpre, hpost⟩
      · exact Or.inr ⟨[], a, l, by simp, heq, h, by simp, hall⟩
      · refine Or.inr ⟨a :: pre, m, post, by simp [hsplit], heq,
          Nat.lt_trans h hlt, ?_, hpost⟩
        intro t ht
        rcases List.mem_cons.mp ht with rfl | ht
        · exact hlt
        · exact hpre t ht
    · have hm : mstep acc a = acc := by simp [mstep, h]
      rw [hm]
      have hle : a.length ≤ acc.length := Nat.le_of_not_lt h
      rcases ih acc with ⟨heq, hall⟩ | ⟨pre, m, post, hsplit, heq, hlt, hpre, hpost⟩
      · refine Or.inl ⟨heq, ?_⟩
        intro t ht
        rcases List.mem_cons.mp ht with rfl | ht
        · exact hle
        · exact hall t ht
      · refine Or.inr ⟨a :: pre, m, post, by simp [hsplit], heq, hlt, ?_, hpost⟩
        intro t ht
        rcases List.mem_cons.mp ht with rfl | ht
        · exact Nat.lt_of_le_of_lt hle hlt
        · exact hpre t ht

theorem mem_qualCands (j : Json) (t : String) (h : t ∈ qualCands j) :
    10 < t.length ∧ is_uuid t = false ∧ ∃ x, t = pyStrip x := by
  unfold qualCands at h
  rcases List.mem_filterMap.mp h with ⟨x, -, hfx⟩
  unfold fragFn at hfx
  by_cases h1 : pyStrip x = ""
  · simp [h1] at hfx
  · by_cases h2 : is_uuid (pyStrip x) = true
    · simp [h1, h2] at hfx
    · by_cases h3 : 10 < (pyStrip x).length
      · rw [if_neg h1, if_neg h2, if_pos h3] at hfx
        injection hfx with hfx
        subst hfx
        exact ⟨h3, by simpa using h2, x, rfl⟩
      · simp [h1, h2, h3] at hfx

theorem extract_not_null (resp : Json) (h : resp = Json.null → False) :
    extract resp = extractRest resp := by
  cases resp
  case null => exact absurd rfl h
  all_goals rfl

/-- C3: when neither the structured-outputs path nor the shallow key probe
yields a result, the extractor returns the first-encountered longest
qualifying string of the depth-first fallback walk (trimmed length strictly
greater than 10, not a UUID), with replacement only on strictly greater
length, and the empty string when no string qualifies. -/
theorem extract_fallback_longest (resp : Json) (h1 : step1 resp = none)
    (h2 : step2 resp = none) :
    (qualCands resp = [] ∧ extract resp = "") ∨
    (∃ pre m post, qualCands resp = pre ++ m :: post ∧ extract resp = m ∧
      10 < m.length ∧ is_uuid m = false ∧
      (∀ t ∈ pre, t.length < m.length) ∧
      (∀ t ∈ post, t.length ≤ m.length)) := by
  by_cases hn : resp = Json.null
  · subst hn
    exact Or.inl ⟨rfl, rfl⟩
  · have he : extract resp = extractRest resp :=
      extract_not_null resp (fun e => hn e)
    have he2 : extract resp = pyStrip (walkAcc resp "") := by
      rw [he]
      simp only [extractRest, h1, h2]
    rw [he2, walkAcc_eq_fold resp ""]
    rcases foldl_mstep_spec (qualCands resp) "" with ⟨heq, hall⟩ |
      ⟨pre, m, post, hsplit, heq, hlt, hpre, hpost⟩
    · left
      have hemp : qualCands resp = [] := by
        cases hq : qualCands resp with
        | nil => rfl
        | cons t ts =>
          have ht : t ∈ qualCands resp := by
            rw [hq]
            exact List.mem_cons_self _ _
          have h10 := (mem_qualCands resp t ht).1
          have h0 := hall t ht
          simp at h0
          omega
      refine ⟨hemp, ?_⟩
      rw [heq]
      rfl
    · right
      have hm : m ∈ qualCands resp := by
        rw [hsplit]
        exact List.mem_append_right _ (List.mem_cons_self _ _)
      rcases mem_qualCands resp m hm with ⟨hlen, huuid, x, hx⟩
      refine ⟨pre, m, post, hsplit, ?_, hlen, huuid, hpre, hpost⟩
      rw [heq, hx]
      exact pyStrip_idem x

/-- Witness for C3 at a concrete input with no structured shape and no
shallow key. -/
theorem extract_fallback_longest_witness :
    step1 fallbackInput = none ∧ step2 fallbackInput = none ∧
      ((qualCands fallbackInput = [] ∧ extract fallbackInput = "") ∨
       (∃ pre m post, qualCands fallbackInput = pre ++ m :: post ∧
         extract fallbackInput = m ∧ 10 < m.length ∧ is_uuid m = false ∧
         (∀ t ∈ pre, t.length < m.length) ∧
         (∀ t ∈ post, t.length ≤ m.length))) :=
  ⟨rfl, rfl, extract_fallback_longest fallbackInput rfl rfl⟩

theorem shallowKeys_null (ks : List String) (k : String) :
    shallowKeys ks [(k, Json.null)] = none := by
  induction ks with
  | nil => rfl
  | cons k2 ks ih =>
    unfold shallowKeys
    by_cases hk : k = k2
    · subst hk
      simp [olookup, ih]
    · simp [olookup, hk, ih]

/-- C10: the fallback walk visits only dict values and list items — it
factors through the value list of every dict, independently of the keys —
and an object whose only string is its key extracts to the empty string. -/
theorem fallback_ignores_keys :
    (∀ (kvs : List (String × Json)) (acc : String),
        walkObj kvs acc = walkArr (kvs.map Prod.snd) acc) ∧
    (∀ k : String, extract (Json.obj [(k, Json.null)]) = "") := by
  constructor
  · intro kvs
    induction kvs with
    | nil => intro acc; rfl
    | cons kv kvs ih =>
      intro acc
      rw [show walkObj (kv :: kvs) acc = walkObj kvs (walkAcc kv.2 acc)
        from rfl]
      rw [show (kv :: kvs).map Prod.snd = kv.2 :: kvs.map Prod.snd from rfl]
      rw [show walkArr (kv.2 :: kvs.map Prod.snd) acc
          = walkArr (kvs.map Prod.snd) (walkAcc kv.2 acc) from rfl]
      exact ih _
  · intro k
    have he : extract (Json.obj [(k, Json.null)])
        = extractRest (Json.obj [(k, Json.null)]) := rfl
    have hs1 : step1 (Json.obj [(k, Json.null)]) = none := by
      unfold step1
      by_cases hk : k = "outputs" <;> simp [olookup, hk]
    have hs2 : step2 (Json.obj [(k, Json.null)]) = none :=
      shallowKeys_null _ k
    rw [he]
    simp only [extractRest, hs1, hs2]
    rfl

/-! ## The structured-outputs path (C1, C5) -/

theorem acceptCand_sound (c : Option Json) (s : String)
    (h : acceptCand c = some s) :
    ∃ cand : String, cand ≠ "" ∧ is_uuid cand = false ∧ s = pyStrip cand := by
  cases c with
  | none => simp [acceptCand] at h
  | some j =>
    cases j with
    | str s0 =>
      simp only [acceptCand] at h
      by_cases h1 : s0 = ""
      · rw [if_pos h1] at h
        cases h
      · by_cases h2 : is_uuid s0 = true
        · rw [if_neg h1, if_pos h2] at h
          cases h
        · rw [if_neg h1, if_neg h2] at h
          injection h with h
          exact ⟨s0, h1, by simpa using h2, h.symm⟩
    | null => simp [acceptCand] at h
    | bool b => simp [acceptCand] at h
    | num n => simp [acceptCand] at h
    | arr xs => simp [acceptCand] at h
    | obj kvs => simp [acceptCand] at h

theorem probeA_sound (out : Json) (s : String) (h : probeA out = some s) :
    ∃ cand : String, cand ≠ "" ∧ is_uuid cand = false ∧ s = pyStrip cand := by
  unfold probeA at h
  cases out with
  | obj kvs =>
    cases ho : olookup "outputs" kvs with
    | none => simp [ho] at h
    | some j1 =>
      cases j1 with
      | obj ov =>
        cases hm : olookup "message" ov with
        | none => simp [ho, hm] at h
        | some j2 =>
          cases j2 with
          | obj mv =>
            simp only [ho, hm] at h
            exact acceptCand_sound _ _ h
          | null => simp [ho, hm] at h
          | bool b => simp [ho, hm] at h
          | num n => simp [ho, hm] at h
          | str s0 => simp [ho, hm] at h
          | arr xs => simp [ho, hm] at h
      | null => simp [ho] at h
      | bool b => simp [ho] at h
      | num n => simp [ho] at h
      | str s0 => simp [ho] at h
      | arr xs => simp [ho] at h
  | null => exact Option.noConfusion h
  | bool b => exact Option.noConfusion h
  | num n => exact Option.noConfusion h
  | str s0 => exact Option.noConfusion h
  | arr xs => exact Option.noConfusion h

theorem probeB_sound (out : Json) (s : String) (h : probeB out = some s) :
    ∃ cand : String, cand ≠ "" ∧ is_uuid cand = false ∧ s = pyStrip cand := by
  unfold probeB at h
  cases out with
  | obj kvs =>
    cases ho : olookup "messages" kvs with
    | none => simp [ho] at h
    | some j1 =>
      cases j1 with
      | arr xs =>
        cases xs with
        | nil => simp [ho] at h
        | cons first rest =>
          cases first with
          | obj fv =>
            simp only [ho] at h
            exact acceptCand_sound _ _ h
          | null => simp [ho] at h
          | bool b => simp [ho] at h
          | num n => simp [ho] at h
          | str s0 => simp [ho] at h
          | arr ys => simp [ho] at h
      | null => simp [ho] at h
      | bool b => simp [ho] at h
      | num n => simp [ho] at h
      | str s0 => simp [ho] at h
      | obj ov => simp [ho] at h
  | null => exact Option.noConfusion h
  | bool b => exact Option.noConfusion h
  | num n => exact Option.noConfusion h
  | str s0 => exact Option.noConfusion h
  | arr xs => exact Option.noConfusion h

theorem probeC_sound (out : Json) (s : String) (h : probeC out = some s) :
    ∃ cand : String, cand ≠ "" ∧ is_uuid cand = false ∧ s = pyStrip cand := by
  unfold probeC at h
  cases out with
  | obj kvs =>
    cases ho : olookup "artifacts" kvs with
    | none => simp [ho] at h
    | some j1 =>
      cases j1 with
      | obj av =>
        simp only [ho] at h
        exact acceptCand_sound _ _ h
      | null => simp [ho] at h
      | bool b => simp [ho] at h
      | num n => simp [ho] at h
      | str s0 => simp [ho] at h
      | arr xs => simp [ho] at h
  | null => exact Option.noConfusion h
  | bool b => exact Option.noConfusion h
  | num n => exact Option.noConfusion h
  | str s0 => exact Option.noConfusion h
  | arr xs => exact Option.noConfusion h

theorem probeD_inner_sound (mv : List (String × Json)) (t : String)
    (h : (match olookup "data" mv with
          | some (Json.obj dv) => acceptCand (olookup "text" dv)
          | _ => none) = some t) :
    ∃ cand : String, cand ≠ "" ∧ is_uuid cand = false ∧ t = pyStrip cand := by
  cases hd : olookup "data" mv with
  | none => simp [hd] at h
  | some j =>
    cases j with
    | obj dv =>
      simp only [hd] at h
      exact acceptCand_sound _ _ h
    | null => simp [hd] at h
    | bool b => simp [hd] at h
    | num n => simp [hd] at h
    | str s0 => simp [hd] at h
    | arr xs => simp [hd] at h

theorem probeD_sound (out : Json) (s : String) (h : probeD out = some s) :
    ∃ cand : String, cand ≠ "" ∧ is_uuid cand = false ∧ s = pyStrip cand := by
  unfold probeD at h
  cases out with
  | obj kvs =>
    cases ho : olookup "results" kvs with
    | none => simp [ho] at h
    | some j1 =>
      cases j1 with
      | obj rv =>
        cases hm : olookup "message" rv with
        | none => simp [ho, hm] at h
        | some j2 =>
          cases j2 with
          | obj mv =>
            simp only [ho, hm] at h
            cases hi : (match olookup "data" mv with
                | some (Json.obj dv) => acceptCand (olookup "text" dv)
                | _ => none) with
            | some t =>
              rw [hi] at h
              injection h with h
              subst h
              exact probeD_inner_sound mv _ hi
            | none =>
              rw [hi] at h
              exact acceptCand_sound _ _ h
          | null => simp [ho, hm] at h
          | bool b => simp [ho, hm] at h
          | num n => simp [ho, hm] at h
          | str s0 => simp [ho, hm] at h
          | arr xs => simp [ho, hm] at h
      | null => simp [ho] at h
      | bool b => simp [ho] at h
      | num n => simp [ho] at h
      | str s0 => simp [ho] at h
      | arr xs => simp [ho] at h
  | null => exact Option.noConfusion h
  | bool b => exact Option.noConfusion h
  | num n => exact Option.noConfusion h
  | str s0 => exact Option.noConfusion h
  | arr xs => exact Option.noConfusion h

theorem probeItem_sound (out : Json) (s : String)
    (h : probeItem out = some s) :
    ∃ cand : String, cand ≠ "" ∧ is_uuid cand = false ∧ s = pyStrip cand := by
  unfold probeItem at h
  cases out with
  | obj kvs =>
    cases ha : probeA (Json.obj kvs) with
    | some t =>
      simp only [ha] at h
      injection h with h
      subst h
      exact probeA_sound _ _ ha
    | none =>
      simp only [ha] at h
      cases hb : probeB (Json.obj kvs) with
      | some t =>
        simp only [hb] at h
        injection h with h
        subst h
        exact probeB_sound _ _ hb
      | none =>
        simp only [hb] at h
        cases hc : probeC (Json.obj kvs) with
        | some t =>
          simp only [hc] at h
          injection h with h
          subst h
          exact probeC_sound _ _ hc
        | none =>
          simp only [hc] at h
          exact probeD_sound _ _ h
  | null => exact Option.noConfusion h
  | bool b => exact Option.noConfusion h
  | num n => exact Option.noConfusion h
  | str s0 => exact Option.noConfusion h
  | arr xs => exact Option.noConfusion h

theorem firstSome_sound (l : List Json) (s : String)
    (h : firstSome probeItem l = some s) :
    ∃ cand : String, cand ≠ "" ∧ is_uuid cand = false ∧ s = pyStrip cand := by
  induction l with
  | nil => exact Option.noConfusion h
  | cons x xs ih =>
    unfold firstSome at h
    cases hx : probeItem x with
    | some t =>
      simp only [hx] at h
      injection h with h
      subst h
      exact probeItem_sound _ _ hx
    | none =>
      simp only [hx] at h
      exact ih h

/-- C1 (corrected): every value the structured-outputs path returns is the
trimmed form of a candidate that was a non-empty, non-UUID string.  The code
does not additionally require trimming to leave the candidate non-empty, so
the returned value may be the empty string (from a whitespace-only
candidate). -/
theorem step1_sound (resp : Json) (s : String) (h : step1 resp = some s) :
    ∃ cand : String, cand ≠ "" ∧ is_uuid cand = false ∧ s = pyStrip cand := by
  unfold step1 at h
  cases resp with
  | obj kvs =>
    cases ho : olookup "outputs" kvs with
    | none => simp [ho] at h
    | some j =>
      cases j with
      | arr xs =>
        cases xs with
        | nil => simp [ho] at h
        | cons x rest =>
          simp only [ho] at h
          exact firstSome_sound _ _ h
      | null => simp [ho] at h
      | bool b => simp [ho] at h
      | num n => simp [ho] at h
      | str s0 => simp [ho] at h
      | obj ov => simp [ho] at h
  | null => exact Option.noConfusion h
  | bool b => exact Option.noConfusion h
  | num n => exact Option.noConfusion h
  | str s0 => exact Option.noConfusion h
  | arr xs => exact Option.noConfusion h

/-- Witness for C1 (corrected) at a concrete padded candidate. -/
theorem step1_sound_witness :
    step1 helloInput = some "Hello there" ∧
      ∃ cand : String, cand ≠ "" ∧ is_uuid cand = false ∧
        "Hello there" = pyStrip cand :=
  ⟨rfl, step1_sound helloInput "Hello there" rfl⟩

/-- Counterexample to C1 as stated: the whitespace-only candidate `"   "` of
shape (a) is accepted — step 1 returns its trimmed form `""` and the
extractor returns `""` — even though the shallow probe would have found
`"hello there"`. -/
theorem whitespace_candidate_accepted :
    step1 wsInput = some "" ∧ step2 wsInput = some "hello there" ∧
      extract wsInput = "" :=
  ⟨rfl, rfl, rfl⟩

/-- C5 (corrected): shape (a) combines `message` and `text` with Python
`or`: `text` is consulted only when `message` is absent or falsy.  A truthy
UUID `message` makes shape (a) yield nothing — `text` is not retried — while
with `message` absent a non-empty non-UUID `text` is returned trimmed. -/
theorem shape_a_uses_or (u t : String) (rest : List (String × Json))
    (hu : is_uuid u = true) (hne : u ≠ "") :
    probeA (Json.obj [("outputs", Json.obj [("message",
        Json.obj (("message", Json.str u) :: ("text", Json.str t) :: rest))])])
      = none ∧
    (t ≠ "" → is_uuid t = false →
      probeA (Json.obj [("outputs", Json.obj [("message",
          Json.obj [("text", Json.str t)])])]) = some (pyStrip t)) := by
  constructor
  · simp [probeA, olookup, pyOr, truthyO, truthyJ, acceptCand, hu, hne]
  · intro ht hu2
    simp [probeA, olookup, pyOr, truthyO, truthyJ, acceptCand, ht, hu2]

/-- Witness for C5 (corrected) at a concrete UUID and text. -/
theorem shape_a_uses_or_witness :
    probeA (Json.obj [("outputs", Json.obj [("message",
        Json.obj [("message", Json.str "a8b894bc-5791-4eb9-a925-3a8136872944"),
          ("text", Json.str " hi ")])])]) = none ∧
    probeA (Json.obj [("outputs", Json.obj [("message",
        Json.obj [("text", Json.str " hi ")])])]) = some (pyStrip " hi ") := by
  have h := shape_a_uses_or "a8b894bc-5791-4eb9-a925-3a8136872944" " hi " []
    (by decide) (by decide)
  exact ⟨h.1, h.2 (by decide) (by decide)⟩

/-- Counterexample to C5 as stated: with a UUID under
`outputs.message.message` and `"hi"` under `outputs.message.text`, the
extractor returns `""`, not the trimmed `text` value. -/
theorem uuid_message_blocks_text :
    extract uuidTextInput = "" ∧ extract uuidTextInput ≠ "hi" := by
  have h0 : extract uuidTextInput = "" := rfl
  exact ⟨h0, fun hc => absurd (h0.symm.trans hc) (by decide)⟩

/-! ## Totality of the extractor (C6) -/

theorem probeAE_ok (kvs : List (String × Json)) :
    probeAE (Json.obj kvs) = Except.ok (probeA (Json.obj kvs)) := by
  simp only [probeAE, probeA, pyGetE]
  cases ho : olookup "outputs" kvs with
  | none => simp [ho]
  | some j1 =>
    cases j1 with
    | obj ov =>
      simp only [ho]
      cases hm : olookup "message" ov with
      | none => simp [hm, pyGetE]
      | some j2 =>
        cases j2 with
        | obj mv => simp [hm, pyGetE]
        | null => simp [hm, pyGetE]
        | bool b => simp [hm, pyGetE]
        | num n => simp [hm, pyGetE]
        | str s0 => simp [hm, pyGetE]
        | arr xs => simp [hm, pyGetE]
    | null => simp [ho]
    | bool b => simp [ho]
    | num n => simp [ho]
    | str s0 => simp [ho]
    | arr xs => simp [ho]

theorem probeBE_ok (kvs : List (String × Json)) :
    probeBE (Json.obj kvs) = Except.ok (probeB (Json.obj kvs)) := by
  simp only [probeBE, probeB, pyGetE]
  cases ho : olookup "messages" kvs with
  | none => simp [ho]
  | some j1 =>
    cases j1 with
    | arr xs =>
      cases xs with
      | nil => simp [ho]
      | cons first rest =>
        cases first with
        | obj fv => simp [ho, pyGetE]
        | null => simp [ho]
        | bool b => simp [ho]
        | num n => simp [ho]
        | str s0 => simp [ho]
        | arr ys => simp [ho]
    | null => simp [ho]
    | bool b => simp [ho]
    | num n => simp [ho]
    | str s0 => simp [ho]
    | obj ov => simp [ho]

theorem probeCE_ok (kvs : List (String × Json)) :
    probeCE (Json.obj kvs) = Except.ok (probeC (Json.obj kvs)) := by
  simp only [probeCE, probeC, pyGetE]
  cases ho : olookup "artifacts" kvs with
  | none => simp [ho]
  | some j1 =>
    cases j1 with
    | obj av => simp [ho, pyGetE]
    | null => simp [ho]
    | bool b => simp [ho]
    | num n => simp [ho]
    | str s0 => simp [ho]
    | arr xs => simp [ho]

theorem probeDE_ok (kvs : List (String × Json)) :
    probeDE (Json.obj kvs) = Except.ok (probeD (Json.obj kvs)) := by
  simp only [probeDE, probeD, pyGetE]
  cases ho : olookup "results" kvs with
  | none => simp [ho]
  | some j1 =>
    cases j1 with
    | obj rv =>
      simp only [ho]
      cases hm : olookup "message" rv with
      | none => simp [hm, pyGetE]
      | some j2 =>
        cases j2 with
        | obj mv =>
          simp only [hm, pyGetE]
          cases hd : olookup "data" mv with
          | none => simp [hd]
          | some j3 =>
            cases j3 with
            | obj dv =>
              simp only [hd]
              cases hi : acceptCand (olookup "text" dv) with
              | some t => simp [hi]
              | none => simp [hi]
            | null => simp [hd]
            | bool b => simp [hd]
            | num n => simp [hd]
            | str s0 => simp [hd]
            | arr xs => simp [hd]
        | null => simp [hm, pyGetE]
        | bool b => simp [hm, pyGetE]
        | num n => simp [hm, pyGetE]
        | str s0 => simp [hm, pyGetE]
        | arr xs => simp [hm, pyGetE]
    | null => simp [ho]
    | bool b => simp [ho]
    | num n => simp [ho]
    | str s0 => simp [ho]
    | arr xs => simp [ho]

theorem probeItemE_ok (out : Json) :
    probeItemE out = Except.ok (probeItem out) := by
  cases out with
  | obj kvs =>
    simp only [probeItemE, probeItem, probeAE_ok]
    cases ha : probeA (Json.obj kvs) with
    | some t => simp
    | none =>
      simp only [probeBE_ok]
      cases hb : probeB (Json.obj kvs) with
      | some t => simp
      | none =>
        simp only [probeCE_ok]
        cases hc : probeC (Json.obj kvs) with
        | some t => simp
        | none => simp [probeDE_ok]
  | null => rfl
  | bool b => rfl
  | num n => rfl
  | str s0 => rfl
  | arr xs => rfl

theorem firstSomeE_ok (l : List Json) :
    firstSomeE probeItemE l = Except.ok (firstSome probeItem l) := by
  induction l with
  | nil => rfl
  | cons x xs ih =>
    simp only [firstSomeE, firstSome, probeItemE_ok]
    cases hx : probeItem x with
    | some t => simp
    | none => simpa using ih

theorem step1E_ok (resp : Json) :
    step1E resp = Except.ok (step1 resp) := by
  cases resp with
  | obj kvs =>
    simp only [step1E, step1]
    cases ho : olookup "outputs" kvs with
    | none => simp
    | some j =>
      cases j with
      | arr xs =>
        cases xs with
        | nil => simp
        | cons x rest => simp [firstSomeE_ok]
      | null => simp
      | bool b => simp
      | num n => simp
      | str s0 => simp
      | obj ov => simp
  | null => rfl
  | bool b => rfl
  | num n => rfl
  | str s0 => rfl
  | arr xs => rfl

theorem extractE_rest (resp : Json) :
    ((match
      (match step1E resp with
       | Except.ok v => v
       | Except.error _ => none) with
     | some s => Except.ok s
     | none =>
       match step2 resp with
       | some s => Except.ok s
       | none =>
         Except.ok (pyStrip (walkAcc resp ""))) : Except PyErr String) =
      Except.ok (extractRest resp) := by
  rw [step1E_ok resp]
  simp only [extractRest]
  cases h1 : step1 resp with
  | some s => simp
  | none =>
    cases h2 : step2 resp with
    | some s => simp
    | none => simp

/-- C6: the extractor is total — in the exception model, where `.get` on a
non-dict raises and the structured-outputs path runs under
`try/except: pass`, the extractor returns `Except.ok` of the pure result on
every JSON-shaped input, so it never raises, and failures inside step 1 fall
through to the later steps by construction of the `except` arm. -/
theorem extract_total_no_raise (resp : Json) :
    extractE resp = Except.ok (extract resp) := by
  cases resp with
  | null => rfl
  | bool b => exact extractE_rest (Json.bool b)
  | num n => exact extractE_rest (Json.num n)
  | str s0 => exact extractE_rest (Json.str s0)
  | arr xs => exact extractE_rest (Json.arr xs)
  | obj kvs => exact extractE_rest (Json.obj kvs)

/-! ## The API client (C2, C7, C8) -/

/-- C7: with the shared secret absent from the environment, the call fails
at once with the configuration error and sends no request. -/
theorem call_without_key_sends_nothing (r : HttpResponse) :
    call_langflow_api none r =
      (Except.error (CallError.configError configErrMsg), 0) := rfl

/-- C2 (corrected): the call fails with an error carrying the status code
and the body verbatim exactly for the client-error and server-error range
400–599, the one `raise_for_status` raises for; other non-2xx statuses are
not errors. -/
theorem call_http_error (k : String) (r : HttpResponse) (hk : k ≠ "")
    (h4 : 400 ≤ r.status) (h6 : r.status < 600) :
    call_langflow_api (some k) r =
      (Except.error (CallError.httpError r.status r.body), 1) := by
  unfold call_langflow_api
  have hkm : keyMissing (some k) = false := by simp [keyMissing, hk]
  have hrfs : raiseForStatus r.status = true := by
    simp [raiseForStatus, h4, h6]
  rw [hkm, hrfs]
  simp

/-- Witness for C2 (corrected) at a concrete 500 response. -/
theorem call_http_error_witness :
    (("secret" : String) ≠ "" ∧ 400 ≤ resp500.status ∧ resp500.status < 600) ∧
      call_langflow_api (some "secret") resp500 =
        (Except.error (CallError.httpError 500 "oops"), 1) :=
  ⟨⟨by decide, by decide, by decide⟩,
    call_http_error "secret" resp500 (by decide) (by decide) (by decide)⟩

/-- Counterexample to C2 as stated: a 304 response is outside the 2xx range,
yet the call does not fail — it parses the body and returns the parsed
value. -/
theorem call_304_not_an_error :
    (resp304.status < 200 ∨ 300 ≤ resp304.status) ∧
      call_langflow_api (some "secret") resp304 =
        (Except.ok (Json.str "cached result"), 1) :=
  ⟨Or.inr (by decide), rfl⟩

/-- C8: on a success (2xx) status the call returns the parsed JSON body, and
when parsing fails it returns the `raw_text` fallback object instead of
failing. -/
theorem call_success_parses (k : String) (r : HttpResponse) (hk : k ≠ "")
    (h2 : 200 ≤ r.status) (h3 : r.status < 300) :
    (∀ j, r.parsed = some j →
      call_langflow_api (some k) r = (Except.ok j, 1)) ∧
    (r.parsed = none →
      call_langflow_api (some k) r =
        (Except.ok (Json.obj [("raw_text", Json.str r.body)]), 1)) := by
  have hkm : keyMissing (some k) = false := by simp [keyMissing, hk]
  have hrfs : raiseForStatus r.status = false := by
    simp only [raiseForStatus, Bool.and_eq_false_iff]
    left
    simp only [decide_eq_false_iff_not]
    omega
  constructor
  · intro j hj
    unfold call_langflow_api
    rw [hkm, hrfs, hj]
    simp
  · intro hj
    unfold call_langflow_api
    rw [hkm, hrfs, hj]
    simp

/-- Witness for C8 at a concrete 200 response with a non-JSON body. -/
theorem call_success_parses_witness :
    (("secret" : String) ≠ "" ∧ 200 ≤ resp200raw.status ∧
        resp200raw.status < 300) ∧
      call_langflow_api (some "secret") resp200raw =
        (Except.ok (Json.obj [("raw_text", Json.str "plain text body")]), 1) :=
  ⟨⟨by decide, by decide, by decide⟩,
    (call_success_parses "secret" resp200raw (by decide) (by decide)
      (by decide)).2 rfl⟩

/-! ## The per-turn history update (C9) -/

/-- C9: a processed user submission appends exactly the user turn followed
by one bot turn to the existing history (no entry is lost or reordered), and
the bot turn is the extracted answer, or the `raw_text` field, or the
literal placeholder, or the error string built from the caught exception. -/
theorem turn_appends_user_bot (hist : List (Role × Json)) (input : String)
    (outcome : Except String Json) :
    ∃ b, processTurn hist input outcome =
        hist ++ [(Role.user, Json.str input), (Role.bot, b)] ∧
      ((∃ e, outcome = Except.error e ∧
          b = Json.str ("Error calling Langflow API: " ++ e)) ∨
       (∃ raw, outcome = Except.ok raw ∧
          ((extract raw ≠ "" ∧ b = Json.str (extract raw)) ∨
           (extract raw = "" ∧ ∃ kvs v, raw = Json.obj kvs ∧
              olookup "raw_text" kvs = some v ∧ b = v) ∨
           (extract raw = "" ∧
              b = Json.str "No human-readable answer found.")))) := by
  refine ⟨botAnswer outcome, by simp [processTurn], ?_⟩
  cases outcome with
  | error e => exact Or.inl ⟨e, rfl, rfl⟩
  | ok raw =>
    refine Or.inr ⟨raw, rfl, ?_⟩
    by_cases ha : extract raw = ""
    · cases raw with
      | obj kvs =>
        cases hol : olookup "raw_text" kvs with
        | some v =>
          refine Or.inr (Or.inl ⟨ha, kvs, v, rfl, hol, ?_⟩)
          simp [botAnswer, ha, hol]
        | none =>
          refine Or.inr (Or.inr ⟨ha, ?_⟩)
          simp [botAnswer, ha, hol]
      | null =>
        refine Or.inr (Or.inr ⟨ha, ?_⟩)
        simp [botAnswer, ha]
      | bool b0 =>
        refine Or.inr (Or.inr ⟨ha, ?_⟩)
        simp [botAnswer, ha]
      | num n =>
        refine Or.inr (Or.inr ⟨ha, ?_⟩)
        simp [botAnswer, ha]
      | str s0 =>
        refine Or.inr (Or.inr ⟨ha, ?_⟩)
        simp [botAnswer, ha]
      | arr xs =>
        refine Or.inr (Or.inr ⟨ha, ?_⟩)
        simp [botAnswer, ha]
    · exact Or.inl ⟨ha, by simp [botAnswer, ha]⟩

end ChatApp
